import Mathlib

/-!
# Verification of the ha-autogen Configuration Analysis Engine

Shallow embedding of the validator, reviewer and inventory-analysis
components of the `ha-autogen` repository, together with proofs of the
specification's claims about them.

The repository ships the test suites for these components; the component
modules themselves are absent from the source tree, so every definition
below is modelled from the specification (each definition's doc comment
names what it models).
-/

namespace HaAutogen

/-- Modelled from the spec: the configuration tree data model (spec §9,
"Untyped recursive tree traversal": a small tagged union of
mapping, sequence and scalar over abstract containers), standing in for
the parsed YAML/JSON documents of the missing validator and reviewer
modules.  Scalars are represented as strings. -/
inductive Yaml where
  | str : String → Yaml
  | seq : List Yaml → Yaml
  | map : List (String × Yaml) → Yaml

/-- First binding of key `k` in a mapping node; `none` for non-mapping
nodes or absent keys (dictionary lookup in the source language). -/
def getKey (k : String) : Yaml → Option Yaml
  | .map kvs => (kvs.find? (fun kv => kv.1 == k)).map (·.2)
  | _ => none

/-- The scalar strings of a node: a scalar itself, or the scalar elements
of a sequence.  Used for values under an `entity_id` key (spec §4.1:
"scalar or sequence of scalars"). -/
def scalarStrings : Yaml → List String
  | .str s => [s]
  | .seq xs => xs.filterMap fun x => match x with | .str s => some s | _ => none
  | .map _ => []

/-- Entity identifiers of the items of an `entities` sequence (spec §4.1:
"any mapping inside a sequence under a key named `entities` (scalar or
`{entity: ...}` items)"). -/
def entityItems : Yaml → List String
  | .seq xs => xs.flatMap fun x =>
      match x with
      | .str s => [s]
      | .map kvs =>
          (match getKey "entity" (Yaml.map kvs) with
           | some (.str s) => [s]
           | _ => [])
      | _ => []
  | _ => []

/-- Entity identifiers contributed directly by one binding `k : v` of a
mapping (spec §4.1: keys `entity_id`, `entity`, `entities`). -/
def entityKeyStrings (k : String) (v : Yaml) : List String :=
  (if k = "entity_id" then scalarStrings v else []) ++
  (if k = "entity" then (match v with | .str s => [s] | _ => []) else []) ++
  (if k = "entities" then entityItems v else [])

mutual

/-- Modelled from the spec: the Tree Reference Extractor's entity walk
(spec §4.1), missing from the source tree.  A generic recursive visitor
that descends into every sequence element and mapping value with no
depth limit and collects the referenced entity identifiers. -/
def collectEntityIds : Yaml → List String
  | .str _ => []
  | .seq xs => collectEntityIdsList xs
  | .map kvs => collectEntityIdsKVs kvs

/-- Entity walk over the elements of a sequence node. -/
def collectEntityIdsList : List Yaml → List String
  | [] => []
  | x :: xs => collectEntityIds x ++ collectEntityIdsList xs

/-- Entity walk over the bindings of a mapping node. -/
def collectEntityIdsKVs : List (String × Yaml) → List String
  | [] => []
  | (k, v) :: kvs => entityKeyStrings k v ++ collectEntityIds v ++ collectEntityIdsKVs kvs

end

mutual

/-- Modelled from the spec: the Tree Reference Extractor's service walk
(spec §4.1: "separately (for service-call checks) the set of
`domain.service` strings under a `service` key"), missing from the
source tree. -/
def collectServices : Yaml → List String
  | .str _ => []
  | .seq xs => collectServicesList xs
  | .map kvs => collectServicesKVs kvs

/-- Service walk over the elements of a sequence node. -/
def collectServicesList : List Yaml → List String
  | [] => []
  | x :: xs => collectServices x ++ collectServicesList xs

/-- Service walk over the bindings of a mapping node. -/
def collectServicesKVs : List (String × Yaml) → List String
  | [] => []
  | (k, v) :: kvs =>
      (if k = "service" then (match v with | .str s => [s] | _ => []) else []) ++
      collectServices v ++ collectServicesKVs kvs

end

/-- The set of entity identifiers referenced by a tree (spec §4.1: the
extractor returns a set, so occurrences are deduplicated). -/
def extract_entity_ids (t : Yaml) : List String :=
  (collectEntityIds t).dedup

/-- The set of `domain.service` strings referenced by a tree. -/
def extract_services (t : Yaml) : List String :=
  (collectServices t).dedup

/-- One row-update step of the Levenshtein distance dynamic program:
`levScan x ys eprev row` extends the new row along `ys` given the
previous row `row` and the entry `eprev` just computed. -/
def levScan (x : Char) : List Char → Nat → List Nat → List Nat
  | [], _, _ => []
  | y :: ys, eprev, dprev :: d :: ds =>
      let e := min (d + 1) (min (eprev + 1) (dprev + (if x = y then 0 else 1)))
      e :: levScan x ys e (d :: ds)
  | _ :: _, _, _ => []

/-- The full Levenshtein row for one character of the first string. -/
def levRow (x : Char) (ys : List Char) (row : List Nat) : List Nat :=
  let e0 := row.headD 0 + 1
  e0 :: levScan x ys e0 row

/-- Modelled from the spec: the Fuzzy Matcher's edit distance (spec §4.2),
missing from the source tree.  Standard Levenshtein distance computed by
the usual single-row dynamic program. -/
def levenshtein (a b : String) : Nat :=
  (a.data.foldl (fun row x => levRow x b.data row) (List.range (b.data.length + 1))).getLastD 0

/-- Modelled from the spec: the Fuzzy Matcher (spec §4.2), missing from
the source tree.  Returns the known identifier closest by edit distance
when within the threshold (distance at most 2, the spec §9 guidance for
catching single-character typos and transpositions), else `none`. -/
def fuzzy_match (unknown : String) (known : List String) : Option String :=
  let best := known.foldl
    (fun acc k =>
      let d := levenshtein unknown k
      match acc with
      | none => some (k, d)
      | some (bk, bd) => if d < bd then some (k, d) else some (bk, bd))
    none
  match best with
  | some (k, d) => if d ≤ 2 then some k else none
  | none => none

/-- Issue severity of the validation pipeline (spec §3: error | warning). -/
inductive ValidationSeverity where
  | error
  | warning
deriving DecidableEq

/-- Whether a severity is the error severity. -/
def ValidationSeverity.isError : ValidationSeverity → Bool
  | .error => true
  | .warning => false

/-- Modelled from the spec: a `ValidationIssue` (spec §3: check name,
severity, message, optional source line number, optional suggestion). -/
structure ValidationIssue where
  check_name : String
  severity : ValidationSeverity
  message : String
  line : Option Nat
  suggestion : Option String
deriving DecidableEq

/-- Modelled from the spec: a `ValidationResult` (spec §3: an issue list,
a derived `valid` flag, and the parsed tree or none if syntax failed). -/
structure ValidationResult where
  valid : Bool
  issues : List ValidationIssue
  yaml_parsed : Option Yaml

/-- Outcome of handing the raw text to the external YAML parser: a parse
tree, a null document, or a structural parse error with a best-effort
line number.  The parser itself is an external collaborator, so the
pipeline is parameterized by it. -/
inductive ParseOutcome where
  | ok : Yaml → ParseOutcome
  | null : ParseOutcome
  | err : String → Option Nat → ParseOutcome

/-- Modelled from the spec: the syntax stage of the validation pipeline
(spec §4.3 stage 1), missing from the source tree.  Empty or
whitespace-only text, a parser error, and a null parse result each yield
a single error-severity `yaml_syntax` issue and no parsed tree. -/
def check_yaml_syntax (parse : String → ParseOutcome) (text : String) : ValidationResult :=
  if text.trim = "" then
    { valid := false
      issues := [{ check_name := "yaml_syntax", severity := .error,
                   message := "Empty YAML content", line := none, suggestion := none }]
      yaml_parsed := none }
  else
    match parse text with
    | .err m ln =>
        { valid := false
          issues := [{ check_name := "yaml_syntax", severity := .error,
                       message := "YAML parse error: " ++ m, line := ln, suggestion := none }]
          yaml_parsed := none }
    | .null =>
        { valid := false
          issues := [{ check_name := "yaml_syntax", severity := .error,
                       message := "YAML parsed to null (empty document)", line := none,
                       suggestion := none }]
          yaml_parsed := none }
    | .ok t => { valid := true, issues := [], yaml_parsed := some t }

/-- The entity-reference issue for one unknown identifier (spec §4.3
stage 4: a warning naming the identifier, with a suggestion populated
from the Fuzzy Matcher when applicable). -/
def entityIssue (known : List String) (e : String) : ValidationIssue :=
  { check_name := "entity_refs", severity := .warning,
    message := "Unknown entity: " ++ e, line := none,
    suggestion := fuzzy_match e known }

/-- Modelled from the spec: the entity-reference stage (spec §4.3 stage
4), missing from the source tree.  Every extracted identifier outside
the known-entity set yields exactly one warning. -/
def check_entity_refs (parsed : Yaml) (known : List String) : List ValidationIssue :=
  (extract_entity_ids parsed).filterMap fun e =>
    if known.contains e then none else some (entityIssue known e)

/-- Modelled from the spec: the fixed known-service-domain list (spec
§4.3 stage 5; domains spot-checked by the repository's service-call
tests). -/
def KNOWN_DOMAINS : List String :=
  ["light", "switch", "automation", "climate", "cover",
   "media_player", "notify", "script", "scene", "vacuum",
   "lock", "fan", "camera", "input_boolean", "input_number",
   "binary_sensor", "sensor", "alarm_control_panel", "button", "homeassistant"]

/-- Whether a service string contains the domain separator. -/
def hasDot (s : String) : Bool :=
  s.data.any (· == '.')

/-- The domain of a service string: everything before the first dot. -/
def serviceDomain (s : String) : String :=
  ⟨s.data.takeWhile (· != '.')⟩

/-- The issue (if any) for one value found under a `service` key (spec
§4.3 stage 5): malformed when it lacks a domain separator, otherwise a
warning naming the domain when the domain is not in the known-domain
list, with a suggestion drawn from that list by fuzzy match. -/
def serviceIssue (s : String) : Option ValidationIssue :=
  if !(hasDot s) then
    some { check_name := "service_calls", severity := .warning,
           message := "Malformed service: " ++ s, line := none, suggestion := none }
  else if KNOWN_DOMAINS.contains (serviceDomain s) then none
  else
    some { check_name := "service_calls", severity := .warning,
           message := "Unknown service domain " ++ serviceDomain s ++ ". In service: " ++ s,
           line := none, suggestion := fuzzy_match (serviceDomain s) KNOWN_DOMAINS }

/-- Modelled from the spec: the service-call stage (spec §4.3 stage 5),
missing from the source tree. -/
def check_service_calls (parsed : Yaml) : List ValidationIssue :=
  (extract_services parsed).filterMap serviceIssue

/-- Modelled from the spec: the automation validation pipeline entry
point (spec §4.3), missing from the source tree.  Runs the syntax stage
and stops there on failure; otherwise accumulates the entity-reference
and service-call issues, with `valid` false iff any issue has error
severity. -/
def validate (parse : String → ParseOutcome) (text : String) (known : List String) :
    ValidationResult :=
  let syn := check_yaml_syntax parse text
  match syn.yaml_parsed with
  | none => syn
  | some t =>
      let issues := check_entity_refs t known ++ check_service_calls t
      { valid := !(issues.any (fun i => i.severity.isError))
        issues := issues
        yaml_parsed := some t }

/-! ## Basic facts about the pipeline -/

theorem isError_iff (s : ValidationSeverity) : s.isError = true ↔ s = .error := by
  cases s <;> simp [ValidationSeverity.isError]

/-- C1: For every input text whose syntax stage fails (empty or
whitespace-only text, a parse error, or a null parse result), the
validation pipeline stops after the syntax stage: the result has
valid=false, carries exactly the syntax issue(s) and no issues from any
later stage, and exposes no parsed tree. -/
theorem syntax_failure_short_circuits (parse : String → ParseOutcome) (text : String)
    (known : List String)
    (h : text.trim = "" ∨ parse text = ParseOutcome.null ∨
         ∃ m ln, parse text = ParseOutcome.err m ln) :
    (validate parse text known).valid = false ∧
    (validate parse text known).yaml_parsed = none ∧
    (validate parse text known).issues = ( check_yaml_syntax parse text).issues ∧
    (validate parse text known).issues ≠ [] ∧
    ∀ i ∈ (validate parse text known).issues, i.check_name = "yaml_syntax" := by
  by_cases htrim : text.trim = ""
  · simp [validate, check_yaml_syntax, htrim]
  · rcases h with h | h | ⟨m, ln, h⟩
    · exact absurd h htrim
    · simp [validate, check_yaml_syntax, htrim, h]
    · simp [validate, check_yaml_syntax, htrim, h]

/-- Closed instance of `syntax_failure_short_circuits` at a concrete
parser and input. -/
theorem syntax_failure_short_circuits_witness :
    (validate (fun _ => ParseOutcome.null) "x" []).valid = false ∧
    (validate (fun _ => ParseOutcome.null) "x" []).yaml_parsed = none ∧
    ∀ i ∈ (validate (fun _ => ParseOutcome.null) "x" []).issues,
      i.check_name = "yaml_syntax" := by
  have h := syntax_failure_short_circuits (fun _ => ParseOutcome.null) "x" []
    (Or.inr (Or.inl rfl))
  exact ⟨h.1, h.2.1, h.2.2.2.2⟩

/-- C2: For every input text and known-entity set, the ValidationResult's
valid flag is false if and only if some issue in the result has error
severity; warning-severity issues alone leave valid=true. -/
theorem valid_iff_no_error_issue (parse : String → ParseOutcome) (text : String)
    (known : List String) :
    (validate parse text known).valid = false ↔
      ∃ i ∈ (validate parse text known).issues, i.severity = ValidationSeverity.error := by
  by_cases htrim : text.trim = ""
  · simp [validate, check_yaml_syntax, htrim]
  · cases hp : parse text with
    | ok t =>
        have hv : validate parse text known =
            { valid := !((check_entity_refs t known ++ check_service_calls t).any
                fun i => i.severity.isError)
              issues := check_entity_refs t known ++ check_service_calls t
              yaml_parsed := some t } := by
          simp [validate, check_yaml_syntax, htrim, hp]
        rw [hv]
        simp only [Bool.not_eq_false', List.any_eq_true, isError_iff]
    | null => simp [validate, check_yaml_syntax, htrim, hp]
    | err m ln => simp [validate, check_yaml_syntax, htrim, hp]

/-! ## String facts used to distinguish issue messages -/

theorem str_append_left_cancel {a b c : String} (h : a ++ b = a ++ c) : b = c := by
  rw [String.ext_iff, String.data_append, String.data_append] at h
  exact String.ext (List.append_cancel_left h)

/-- Lists that agree on a separator character neither side contains split
uniquely at that separator. -/
theorem sep_inj (c : Char) : ∀ (a b : List Char) (x y : List Char), c ∉ a → c ∉ b →
    a ++ c :: x = b ++ c :: y → a = b ∧ x = y
  | [], [], x, y, _, _, h => by simpa using h
  | [], b' :: bs, x, y, _, hb, h => by
    simp only [List.nil_append, List.cons_append, List.cons.injEq] at h
    obtain ⟨h1, _⟩ := h
    subst h1
    exact absurd (List.mem_cons_self _ _) hb
  | a' :: as, [], x, y, ha, _, h => by
    simp only [List.cons_append, List.nil_append, List.cons.injEq] at h
    obtain ⟨h1, _⟩ := h
    subst h1
    exact absurd (List.mem_cons_self _ _) ha
  | a' :: as, b' :: bs, x, y, ha, hb, h => by
    simp only [List.cons_append, List.cons.injEq] at h
    have := sep_inj c as bs x y (fun hc => ha (List.mem_cons_of_mem _ hc))
      (fun hc => hb (List.mem_cons_of_mem _ hc)) h.2
    exact ⟨by rw [h.1, this.1], this.2⟩

theorem unknown_ne_malformed (x y : String) :
    "Unknown service domain " ++ x ≠ "Malformed service: " ++ y := by
  intro h
  have hd := congrArg String.data h
  simp only [String.data_append] at hd
  rw [List.cons_append, List.cons_append] at hd
  injection hd with h1 _
  exact absurd h1 (by decide)

theorem dot_not_mem_serviceDomain (s : String) : '.' ∉ (serviceDomain s).data := by
  intro h
  have := List.mem_takeWhile_imp h
  simp at this

/-- The unknown-domain message determines the offending service string. -/
theorem unknown_msg_inj {a b : String}
    (h : "Unknown service domain " ++ serviceDomain a ++ ". In service: " ++ a =
         "Unknown service domain " ++ serviceDomain b ++ ". In service: " ++ b) : a = b := by
  have hd := congrArg String.data h
  simp only [String.data_append, List.append_assoc] at hd
  have hcancel := List.append_cancel_left hd
  simp only [List.cons_append] at hcancel
  have := sep_inj '.' (serviceDomain a).data (serviceDomain b).data _ _
    (dot_not_mem_serviceDomain a) (dot_not_mem_serviceDomain b) hcancel
  rw [String.ext_iff]
  simpa using this.2

/-! ## Exactly one issue per flagged reference -/

/-- For a duplicate-free input list, a `filterMap`-style check emits
exactly one issue carrying the message of a flagged element, provided no
other element can produce that message. -/
theorem countP_filterMap_eq_one :
    ∀ (l : List String), l.Nodup → ∀ (f : String → Option ValidationIssue) (msg s : String),
    s ∈ l →
    (∃ i, f s = some i ∧ i.message = msg) →
    (∀ b, b ∈ l → b ≠ s → ∀ i, f b = some i → ¬ i.message = msg) →
    ((l.filterMap f).countP (fun i => i.message == msg)) = 1
  | [], _, _, _, _, hs, _, _ => absurd hs (List.not_mem_nil _)
  | a :: as, hnd, f, msg, s, hs, hself, hother => by
    rcases List.mem_cons.mp hs with rfl | hmem
    · obtain ⟨i, hfi, hmsg⟩ := hself
      have hzero : ((as.filterMap f).countP (fun i => i.message == msg)) = 0 :=
        List.countP_eq_zero.mpr (by
          intro j hj
          obtain ⟨b, hb, hfb⟩ := List.mem_filterMap.mp hj
          have hbne : b ≠ s := by
            rintro rfl
            exact (List.nodup_cons.mp hnd).1 hb
          simp [hother b (List.mem_cons_of_mem _ hb) hbne j hfb])
      simp [List.filterMap_cons, hfi, List.countP_cons, hmsg, hzero]
    · have hane : a ≠ s := by
        rintro rfl
        exact (List.nodup_cons.mp hnd).1 hmem
      have ih := countP_filterMap_eq_one as (List.nodup_cons.mp hnd).2 f msg s hmem hself
        (fun b hb => hother b (List.mem_cons_of_mem _ hb))
      cases hfa : f a with
      | none => simpa [List.filterMap_cons, hfa] using ih
      | some j =>
        have hj : ¬ j.message = msg := hother a (List.mem_cons_self _ _) hane j hfa
        simp [List.filterMap_cons, hfa, List.countP_cons, hj, ih]

theorem contains_false_iff (l : List String) (a : String) : l.contains a = false ↔ a ∉ l := by
  simp [List.contains]

theorem unknownMsg_assoc (s : String) :
    "Unknown service domain " ++ serviceDomain s ++ ". In service: " ++ s =
      "Unknown service domain " ++ (serviceDomain s ++ (". In service: " ++ s)) := by
  rw [String.append_assoc, String.append_assoc]

theorem serviceIssue_malformed {s : String} (h : hasDot s = false) :
    serviceIssue s = some
      { check_name := "service_calls", severity := .warning,
        message := "Malformed service: " ++ s, line := none, suggestion := none } := by
  rw [serviceIssue, if_pos (by simp [h])]

theorem serviceIssue_known {s : String} (h1 : hasDot s = true)
    (h2 : serviceDomain s ∈ KNOWN_DOMAINS) : serviceIssue s = none := by
  rw [serviceIssue, if_neg (by simp [h1]), if_pos (by simpa [List.contains] using h2)]

theorem serviceIssue_unknown {s : String} (h1 : hasDot s = true)
    (h2 : serviceDomain s ∉ KNOWN_DOMAINS) :
    serviceIssue s = some
      { check_name := "service_calls", severity := .warning,
        message := "Unknown service domain " ++ serviceDomain s ++ ". In service: " ++ s,
        line := none, suggestion := fuzzy_match (serviceDomain s) KNOWN_DOMAINS } := by
  rw [serviceIssue, if_neg (by simp [h1]), if_neg (by simpa [List.contains] using h2)]

theorem entityCheck_unknown {K : List String} {b : String} (h : b ∉ K) :
    (if K.contains b then none else some (entityIssue K b)) = some (entityIssue K b) :=
  if_neg (by simpa [List.contains] using h)

theorem entityCheck_known {K : List String} {b : String} (h : b ∈ K) :
    (if K.contains b then none else some (entityIssue K b)) = none :=
  if_pos (by simpa [List.contains] using h)

/-- C3: For every known-entity set K and every parsed tree T, each entity
identifier extracted from T that is not in K produces exactly one
warning-severity issue naming that identifier (with a fuzzy-match
suggestion, see `entityIssue`), and each value under a `service` key
produces exactly one warning: naming it "Malformed" when it lacks a
domain separator, or naming its domain when that domain is outside the
fixed known-domain list. -/
theorem unknown_refs_flagged_once (T : Yaml) (K : List String) :
    (∀ e, e ∈ extract_entity_ids T → e ∉ K →
        ((check_entity_refs T K).countP
          (fun i => i.message == "Unknown entity: " ++ e)) = 1) ∧
    (∀ i ∈ check_entity_refs T K,
        i.severity = ValidationSeverity.warning ∧
        ∃ e, e ∈ extract_entity_ids T ∧ e ∉ K ∧ i = entityIssue K e) ∧
    (∀ s, s ∈ extract_services T → hasDot s = false →
        ((check_service_calls T).countP
          (fun i => i.message == "Malformed service: " ++ s)) = 1) ∧
    (∀ s, s ∈ extract_services T → hasDot s = true → serviceDomain s ∉ KNOWN_DOMAINS →
        ((check_service_calls T).countP
          (fun i => i.message ==
            "Unknown service domain " ++ serviceDomain s ++ ". In service: " ++ s)) = 1) ∧
    (∀ i ∈ check_service_calls T, i.severity = ValidationSeverity.warning) := by
  refine ⟨?_, ?_, ?_, ?_, ?_⟩
  · intro e he hek
    refine countP_filterMap_eq_one _ (List.nodup_dedup _) _ _ e he
      ⟨entityIssue K e, entityCheck_unknown hek, rfl⟩ ?_
    intro b hb hbe i hfi hmsg
    by_cases hbk : b ∈ K
    · rw [entityCheck_known hbk] at hfi
      cases hfi
    · rw [entityCheck_unknown hbk] at hfi
      rw [← Option.some.inj hfi] at hmsg
      have hmsg2 : "Unknown entity: " ++ b = "Unknown entity: " ++ e := hmsg
      exact hbe (str_append_left_cancel hmsg2)
  · intro i hi
    obtain ⟨e, he, hfe⟩ := List.mem_filterMap.mp hi
    by_cases hek : e ∈ K
    · rw [entityCheck_known hek] at hfe
      cases hfe
    · rw [entityCheck_unknown hek] at hfe
      have hie := Option.some.inj hfe
      subst hie
      exact ⟨rfl, e, he, hek, rfl⟩
  · intro s hs hdot
    refine countP_filterMap_eq_one _ (List.nodup_dedup _) _ _ s hs
      ⟨_, serviceIssue_malformed hdot, rfl⟩ ?_
    intro b hb hbs i hfi hmsg
    by_cases hdb : hasDot b = true
    · by_cases hkb : serviceDomain b ∈ KNOWN_DOMAINS
      · rw [serviceIssue_known hdb hkb] at hfi
        cases hfi
      · rw [serviceIssue_unknown hdb hkb] at hfi
        rw [← Option.some.inj hfi] at hmsg
        have hmsg2 : "Unknown service domain " ++ serviceDomain b ++ ". In service: " ++ b =
            "Malformed service: " ++ s := hmsg
        rw [unknownMsg_assoc] at hmsg2
        exact unknown_ne_malformed _ _ hmsg2
    · have hdb2 : hasDot b = false := by simpa using hdb
      rw [serviceIssue_malformed hdb2] at hfi
      rw [← Option.some.inj hfi] at hmsg
      have hmsg2 : "Malformed service: " ++ b = "Malformed service: " ++ s := hmsg
      exact hbs (str_append_left_cancel hmsg2)
  · intro s hs hdot hkd
    refine countP_filterMap_eq_one _ (List.nodup_dedup _) _ _ s hs
      ⟨_, serviceIssue_unknown hdot hkd, rfl⟩ ?_
    intro b hb hbs i hfi hmsg
    by_cases hdb : hasDot b = true
    · by_cases hkb : serviceDomain b ∈ KNOWN_DOMAINS
      · rw [serviceIssue_known hdb hkb] at hfi
        cases hfi
      · rw [serviceIssue_unknown hdb hkb] at hfi
        rw [← Option.some.inj hfi] at hmsg
        have hmsg2 : "Unknown service domain " ++ serviceDomain b ++ ". In service: " ++ b =
            "Unknown service domain " ++ serviceDomain s ++ ". In service: " ++ s := hmsg
        exact hbs (unknown_msg_inj hmsg2)
    · have hdb2 : hasDot b = false := by simpa using hdb
      rw [serviceIssue_malformed hdb2] at hfi
      rw [← Option.some.inj hfi] at hmsg
      have hmsg2 : "Malformed service: " ++ b =
          "Unknown service domain " ++ serviceDomain s ++ ". In service: " ++ s := hmsg
      rw [unknownMsg_assoc s] at hmsg2
      exact unknown_ne_malformed _ _ hmsg2.symm
  · intro i hi
    obtain ⟨b, hb, hfi⟩ := List.mem_filterMap.mp hi
    by_cases hdb : hasDot b = true
    · by_cases hkb : serviceDomain b ∈ KNOWN_DOMAINS
      · rw [serviceIssue_known hdb hkb] at hfi
        cases hfi
      · rw [serviceIssue_unknown hdb hkb] at hfi
        rw [← Option.some.inj hfi]
    · have hdb2 : hasDot b = false := by simpa using hdb
      rw [serviceIssue_malformed hdb2] at hfi
      rw [← Option.some.inj hfi]

/-- Closed instance of `unknown_refs_flagged_once`: the unknown entity
`light.garage` and the dotless service `turn_on` from the repository's
validator tests are each flagged exactly once. -/
theorem unknown_refs_flagged_once_witness :
    ((check_entity_refs
        (Yaml.map [("action", Yaml.map [("service", Yaml.str "light.turn_on"),
          ("target", Yaml.map [("entity_id", Yaml.str "light.garage")])])])
        ["light.living_room", "light.kitchen"]).countP
      (fun i => i.message == "Unknown entity: " ++ "light.garage")) = 1 ∧
    ((check_service_calls
        (Yaml.map [("action", Yaml.seq [Yaml.map [("service", Yaml.str "turn_on")]])])).countP
      (fun i => i.message == "Malformed service: " ++ "turn_on")) = 1 :=
  ⟨(unknown_refs_flagged_once
      (Yaml.map [("action", Yaml.map [("service", Yaml.str "light.turn_on"),
        ("target", Yaml.map [("entity_id", Yaml.str "light.garage")])])])
      ["light.living_room", "light.kitchen"]).1 "light.garage" (by decide) (by decide),
   (unknown_refs_flagged_once
      (Yaml.map [("action", Yaml.seq [Yaml.map [("service", Yaml.str "turn_on")]])])
      []).2.2.1 "turn_on" (by decide) (by decide)⟩

/-! ## Review engine -/

/-- Finding severity (spec §3: critical | warning | suggestion | info). -/
inductive FindingSeverity where
  | critical
  | warning
  | suggestion
  | info
deriving DecidableEq

/-- Finding category (spec §3: the fixed enumeration). -/
inductive FindingCategory where
  | trigger_efficiency
  | missing_guards
  | security
  | deprecated_patterns
  | error_resilience
  | unused_entities
  | inconsistent_cards
  | missing_area_coverage
  | card_type_recommendation
  | layout_optimization
deriving DecidableEq

/-- Modelled from the spec: a `Finding` (spec §3: severity, category,
optional automation identifier/alias, title, description, optional
suggestion). -/
structure Finding where
  severity : FindingSeverity
  category : FindingCategory
  automation_id : Option String
  automation_alias : Option String
  title : String
  description : String
  suggestion : Option String
deriving DecidableEq

/-- ASCII lowercasing of one character. -/
def lowerChar (c : Char) : Char :=
  if 65 ≤ c.toNat ∧ c.toNat ≤ 90 then Char.ofNat (c.toNat + 32) else c

/-- Whitespace test for title normalization. -/
def isSpaceChar (c : Char) : Bool :=
  c == ' ' || c == '\t' || c == '\n' || c == '\r'

/-- Title normalization used for deduplication (strip surrounding
whitespace, lowercase). -/
def normalizeTitle (s : String) : String :=
  ⟨(((s.data.map lowerChar).dropWhile isSpaceChar).reverse.dropWhile isSpaceChar).reverse⟩

/-- The dedup identity of a finding (spec §3: "equality for dedup
purposes is defined by (category, automation identifier, normalized
title)"). -/
def findingKey (f : Finding) : FindingCategory × Option String × String :=
  (f.category, f.automation_id, normalizeTitle f.title)

/-- Modelled from the spec: the Review Engine's merge step (spec §4.5
step 3), missing from the source tree.  A reviewer-sourced finding is
discarded iff an already-collected finding shares its dedup key. -/
def merge_findings (det : List Finding) (reviewer_findings : List Finding) : List Finding :=
  reviewer_findings.foldl
    (fun acc f =>
      if acc.any (fun g => decide (findingKey g = findingKey f)) then acc else acc ++ [f])
    det

/-- The sequence of nodes under key `k`: a sequence value yields its
elements, a single mapping is treated as a one-element sequence. -/
def asSeq : Yaml → List Yaml
  | .seq xs => xs
  | .map kvs => [.map kvs]
  | .str _ => []

/-- The (possibly empty) list of nodes under key `k` of an automation. -/
def getSeq (k : String) (auto : Yaml) : List Yaml :=
  match getKey k auto with
  | some v => asSeq v
  | none => []

/-- The scalar under key `k`, when present. -/
def getStr (k : String) (t : Yaml) : Option String :=
  match getKey k t with
  | some (.str s) => some s
  | _ => none

/-- The automation's optional `id` field. -/
def autoId (auto : Yaml) : Option String :=
  getStr "id" auto

/-- The automation's optional `alias` field. -/
def autoAlias (auto : Yaml) : Option String :=
  getStr "alias" auto

/-- The part of a `domain.service` string after the first dot. -/
def serviceName (s : String) : String :=
  ⟨(s.data.dropWhile (· != '.')).drop 1⟩

/-- Decimal parse of a nonempty digit list. -/
def digitsToNat (l : List Char) : Option Nat :=
  if l.isEmpty then none
  else l.foldl
    (fun acc c =>
      match acc with
      | none => none
      | some n => if c.isDigit then some (n * 10 + (c.toNat - 48)) else none)
    (some 0)

/-- Whether a `time_pattern` seconds field denotes a sub-minute cadence
(spec §4.4: "seconds field starting with `/` and a small divisor"). -/
def subMinutePattern (v : String) : Bool :=
  match v.data with
  | '/' :: rest =>
      (match digitsToNat rest with
       | some n => n < 60
       | none => false)
  | _ => false

/-- Modelled from the spec: the trigger-efficiency rule (spec §4.4),
missing from the source tree.  A `time_pattern` trigger firing on a
sub-minute cadence is flagged as inefficient polling. -/
def check_trigger_efficiency (auto : Yaml) : List Finding :=
  (getSeq "trigger" auto).filterMap fun t =>
    match getStr "platform" t, getStr "seconds" t with
    | some "time_pattern", some v =>
        if subMinutePattern v then
          some { severity := .warning, category := .trigger_efficiency,
                 automation_id := autoId auto, automation_alias := autoAlias auto,
                 title := "Inefficient polling trigger",
                 description := "A time_pattern trigger fires on a sub-minute cadence: " ++ v,
                 suggestion := some "Prefer state or event triggers over sub-minute polling" }
        else none
    | _, _ => none

/-- Modelled from the spec: the missing-guards rule (spec §4.4), missing
from the source tree.  An automation with triggers and actions but zero
conditions is flagged at suggestion severity. -/
def check_missing_guards (auto : Yaml) : List Finding :=
  if !(getSeq "trigger" auto).isEmpty && !(getSeq "action" auto).isEmpty &&
      (getSeq "condition" auto).isEmpty then
    [{ severity := .suggestion, category := .missing_guards,
       automation_id := autoId auto, automation_alias := autoAlias auto,
       title := "Automation has no conditions",
       description := "Triggers fire actions without any guard conditions",
       suggestion := some "Consider adding a guard condition" }]
  else []

/-- Modelled from the spec: the sensitive domains of the security rule
(spec §4.4: lock, alarm control, cover used as an egress point). -/
def SENSITIVE_DOMAINS : List String :=
  ["lock", "alarm_control_panel", "cover"]

/-- The sensitive domain targeted by one action, if any: the service call
domain, or else the domain of a referenced entity. -/
def actionSensitiveDomain (a : Yaml) : Option String :=
  match getStr "service" a with
  | some s =>
      if SENSITIVE_DOMAINS.contains (serviceDomain s) then some (serviceDomain s)
      else ((extract_entity_ids a).map serviceDomain).find?
        (fun d => SENSITIVE_DOMAINS.contains d)
  | none =>
      ((extract_entity_ids a).map serviceDomain).find?
        (fun d => SENSITIVE_DOMAINS.contains d)

/-- Modelled from the spec: the security rule (spec §4.4), missing from
the source tree.  An action targeting a sensitive domain is critical
when the automation has no conditions and a warning otherwise. -/
def check_security_concerns (auto : Yaml) : List Finding :=
  (getSeq "action" auto).filterMap fun a =>
    match actionSensitiveDomain a with
    | none => none
    | some d =>
        if (getSeq "condition" auto).isEmpty then
          some { severity := .critical, category := .security,
                 automation_id := autoId auto, automation_alias := autoAlias auto,
                 title := "Sensitive domain without adequate guards: " ++ d,
                 description := "Action targets the sensitive domain " ++ d ++
                   " and the automation has no conditions",
                 suggestion := some "Add conditions constraining who or when" }
        else
          some { severity := .warning, category := .security,
                 automation_id := autoId auto, automation_alias := autoAlias auto,
                 title := "Sensitive domain without adequate guards: " ++ d,
                 description := "Action targets the sensitive domain " ++ d ++
                   " and the conditions may not constrain access",
                 suggestion := some "Review the conditions for access constraints" }

/-- Modelled from the spec: the deprecated-patterns rule (spec §4.4),
missing from the source tree.  A generic cross-domain `homeassistant`
service is flagged, naming the domain-specific equivalent of the
targeted entity. -/
def check_deprecated_patterns (auto : Yaml) : List Finding :=
  (getSeq "action" auto).filterMap fun a =>
    match getStr "service" a with
    | some s =>
        if serviceDomain s = "homeassistant" then
          let repl :=
            match (extract_entity_ids a).head? with
            | some e => serviceDomain e ++ "." ++ serviceName s
            | none => "a domain-specific service"
          some { severity := .warning, category := .deprecated_patterns,
                 automation_id := autoId auto, automation_alias := autoAlias auto,
                 title := "Generic cross-domain service call",
                 description := "Use " ++ repl ++ " instead of " ++ s,
                 suggestion := some ("Replace " ++ s ++ " with " ++ repl) }
        else none
    | none => none

/-- Modelled from the spec: the ordered automation rule registry (spec
§4.4, §9), missing from the source tree. -/
def run_all_rules (auto : Yaml) : List Finding :=
  check_trigger_efficiency auto ++ check_missing_guards auto ++
  check_security_concerns auto ++ check_deprecated_patterns auto

/-- Modelled from the spec: a `ReviewResult` (spec §4.5). -/
structure ReviewResult where
  findings : List Finding
  model : String
  summary : String
  automations_reviewed : Nat

/-- Outcome of the single external reviewer round-trip: the call either
fails outright or returns free-text content and a model name. -/
inductive LLMOutcome where
  | failure
  | success (content : String) (model : String)

/-- The review summary (spec §4.5 step 4: mentions the automation count
and either the total issue count or an explicit no-issues statement). -/
def mkSummary (n : Nat) (issues : Nat) : String :=
  if issues = 0 then
    "Reviewed " ++ toString n ++ " automation(s): no issues found"
  else
    "Reviewed " ++ toString n ++ " automation(s): " ++ toString issues ++ " issue(s) found"

/-- Modelled from the spec: the Review Engine entry point (spec §4.5),
missing from the source tree.  The best-effort free-text decoder of the
reviewer's content is abstracted as the `parse_findings` parameter
(`none` models unparseable content).  On a failed call or unparseable
content the engine logs and proceeds with only the deterministic
findings, leaving `model` as the empty string; it never propagates the
failure. -/
def review_automations (autos : List Yaml) (outcome : LLMOutcome)
    (parse_findings : String → Option (List Finding)) : ReviewResult :=
  let det := autos.flatMap run_all_rules
  match outcome with
  | .failure =>
      { findings := det, model := "",
        summary := mkSummary autos.length det.length,
        automations_reviewed := autos.length }
  | .success content model =>
      match parse_findings content with
      | none =>
          { findings := det, model := "",
            summary := mkSummary autos.length det.length,
            automations_reviewed := autos.length }
      | some fs =>
          let merged := merge_findings det fs
          { findings := merged, model := model,
            summary := mkSummary autos.length merged.length,
            automations_reviewed := autos.length }

/-- Occurrences of a dedup key in a finding list. -/
def countKey (l : List Finding) (k : FindingCategory × Option String × String) : Nat :=
  l.countP (fun g => decide (findingKey g = k))

/-- The merge step characterized at the dedup-key level: keys present in
the deterministic findings keep their multiplicity, keys only proposed
by the reviewer appear exactly once no matter how often proposed. -/
theorem merge_countKey :
    ∀ (llm det : List Finding) (k : FindingCategory × Option String × String),
    countKey (merge_findings det llm) k =
      if 0 < countKey det k then countKey det k else min (countKey llm k) 1
  | [], det, k => by
    have hm : merge_findings det [] = det := rfl
    have h0 : countKey ([] : List Finding) k = 0 := rfl
    rw [hm, h0]
    split_ifs <;> omega
  | f :: fs, det, k => by
    have hm : merge_findings det (f :: fs) =
        merge_findings
          (if det.any (fun g => decide (findingKey g = findingKey f)) then det
           else det ++ [f]) fs := rfl
    rw [hm]
    have hcons : countKey (f :: fs) k =
        countKey fs k + (if findingKey f = k then 1 else 0) := by
      simp [countKey, List.countP_cons]
    by_cases hdup : det.any (fun g => decide (findingKey g = findingKey f)) = true
    · rw [if_pos hdup, merge_countKey fs det k, hcons]
      by_cases hkey : findingKey f = k
      · have hpos : 0 < countKey det k := by
          obtain ⟨g, hg, hgk⟩ := List.any_eq_true.mp hdup
          refine List.countP_pos_iff.mpr ⟨g, hg, ?_⟩
          simp only [decide_eq_true_eq] at hgk ⊢
          rw [hgk, hkey]
        simp only [hkey, eq_self_iff_true, if_true, if_pos hpos]
      · simp only [if_neg hkey]
        split_ifs <;> omega
    · rw [if_neg hdup, merge_countKey fs (det ++ [f]) k, hcons]
      have happ : countKey (det ++ [f]) k =
          countKey det k + (if findingKey f = k then 1 else 0) := by
        simp [countKey, List.countP_append, List.countP_cons]
      rw [happ]
      by_cases hkey : findingKey f = k
      · have hzero : countKey det k = 0 := by
          rw [countKey, List.countP_eq_zero]
          intro g hg
          simp only [decide_eq_true_eq]
          intro hgk
          exact hdup (List.any_eq_true.mpr ⟨g, hg, by simp [hgk, hkey]⟩)
        simp only [hkey, hzero, eq_self_iff_true, if_true]
        split_ifs <;> omega
      · simp only [if_neg hkey]
        split_ifs <;> omega

/-- The two sample automations of the repository's review-engine tests:
a guarded motion light and an unguarded night lock. -/
def sampleAutomations : List Yaml :=
  [Yaml.map [("id", Yaml.str "auto_1"), ("alias", Yaml.str "Motion Light"),
     ("trigger", Yaml.seq [Yaml.map [("platform", Yaml.str "state"),
        ("entity_id", Yaml.str "binary_sensor.motion")]]),
     ("condition", Yaml.seq [Yaml.map [("condition", Yaml.str "sun"),
        ("after", Yaml.str "sunset")]]),
     ("action", Yaml.seq [Yaml.map [("service", Yaml.str "light.turn_on"),
        ("target", Yaml.map [("entity_id", Yaml.str "light.hall")])]])],
   Yaml.map [("id", Yaml.str "auto_2"), ("alias", Yaml.str "Lock Door at Night"),
     ("trigger", Yaml.seq [Yaml.map [("platform", Yaml.str "time"),
        ("at", Yaml.str "23:00:00")]]),
     ("action", Yaml.seq [Yaml.map [("service", Yaml.str "lock.lock"),
        ("target", Yaml.map [("entity_id", Yaml.str "lock.front")])]])]]

/-- The reviewer-sourced finding of the dedup test: same category,
automation and title as the deterministic security finding for
`auto_2`, other fields differing. -/
def reviewerSecurityFinding : Finding :=
  { severity := .critical, category := .security,
    automation_id := some "auto_2", automation_alias := some "Lock Door at Night",
    title := "Sensitive domain without adequate guards: lock",
    description := "Lock without conditions", suggestion := none }

/-- C4: In the review engine's merge step, a reviewer-sourced finding is
discarded exactly when some already-collected finding has the same
(category, automation identifier, normalized title) triple, regardless
of any other field differing; in particular a reviewer security finding
for automation auto_2 with the same title as an existing deterministic
finding leaves exactly one such finding in the result. -/
theorem merge_discards_duplicate_key (det llm : List Finding)
    (k : FindingCategory × Option String × String) :
    (countKey (merge_findings det llm) k =
      if 0 < countKey det k then countKey det k else min (countKey llm k) 1) ∧
    ((review_automations sampleAutomations
        (LLMOutcome.success "review" "test-model")
        (fun _ => some [reviewerSecurityFinding])).findings.countP
      (fun g => decide (g.category = FindingCategory.security ∧
        g.automation_id = some "auto_2"))) = 1 :=
  ⟨merge_countKey llm det k, by decide⟩

/-- C5: For every automation collection, if the single external reviewer
call fails for any reason (raises, or returns content the best-effort
decoder cannot parse), review_automations still returns a ReviewResult
whose findings are exactly the deterministic rule findings and whose
model field is the empty string; the failure is never propagated (the
engine is a total function). -/
theorem review_failure_falls_back (autos : List Yaml) (outcome : LLMOutcome)
    (parse_findings : String → Option (List Finding))
    (h : outcome = LLMOutcome.failure ∨
         ∃ c m, outcome = LLMOutcome.success c m ∧ parse_findings c = none) :
    (review_automations autos outcome parse_findings).findings =
      autos.flatMap run_all_rules ∧
    (review_automations autos outcome parse_findings).model = "" ∧
    (review_automations autos outcome parse_findings).automations_reviewed =
      autos.length := by
  rcases h with h | ⟨c, m, ho, hp⟩
  · subst h
    exact ⟨rfl, rfl, rfl⟩
  · subst ho
    refine ⟨?_, ?_, ?_⟩ <;> simp [review_automations, hp]

/-- Closed instance of `review_failure_falls_back` at the sample
automations and a failing reviewer call. -/
theorem review_failure_falls_back_witness :
    (review_automations sampleAutomations LLMOutcome.failure (fun _ => none)).findings =
      sampleAutomations.flatMap run_all_rules ∧
    (review_automations sampleAutomations LLMOutcome.failure (fun _ => none)).model = "" ∧
    (review_automations sampleAutomations LLMOutcome.failure
      (fun _ => none)).automations_reviewed = sampleAutomations.length :=
  review_failure_falls_back sampleAutomations LLMOutcome.failure (fun _ => none) (Or.inl rfl)

/-! ## Inventory analyzer -/

/-- Modelled from the spec: an `EntityEntry` registry snapshot (spec §3).
Presence of the disabled/hidden markers excludes the entity from
analysis. -/
structure EntityEntry where
  entity_id : String
  name : Option String
  platform : String
  device_id : Option String
  area_id : Option String
  disabled_by : Option String
  hidden_by : Option String
  labels : List String
deriving DecidableEq

/-- Modelled from the spec: an `AreaEntry` registry snapshot (spec §3). -/
structure AreaEntry where
  area_id : String
  name : String
  aliases : List String
  floor_id : Option String
  icon : Option String
  labels : List String
  picture : Option String
deriving DecidableEq

/-- Modelled from the spec: a `Pattern` (spec §3: title, area
identifier/name, trigger entity set, target entity set). -/
structure Pattern where
  title : String
  area_id : String
  area_name : String
  trigger_entities : List String
  target_entities : List String
deriving DecidableEq

/-- Modelled from the spec: one ranked area profile (spec §4.6: one per
area with at least one active entity, ranked by unmatched pattern
opportunities). -/
structure AreaProfile where
  area_id : String
  area_name : String
  entity_ids : List String
  pattern_count : Nat
deriving DecidableEq

/-- Modelled from the spec: an `InventoryAnalysis` (spec §3). -/
structure InventoryAnalysis where
  total_entities : Nat
  total_areas : Nat
  total_automations : Nat
  automated_entity_ids : List String
  unautomated_entity_ids : List String
  area_profiles : List AreaProfile
  matched_patterns : List Pattern
  coverage_percent : ℚ

/-- An entity is active when it carries neither a disabled nor a hidden
marker (spec §3 invariant). -/
def isActive (e : EntityEntry) : Bool :=
  e.disabled_by.isNone && e.hidden_by.isNone

/-- Modelled from the spec: the union of entity identifiers referenced by
any automation (spec §4.6, via the Tree Reference Extractor). -/
def extract_automated_entities (autos : List Yaml) : List String :=
  (autos.flatMap collectEntityIds).dedup

/-- The coverage formula (spec §3: 100 × automated / total active, and 0
when the total is 0).  Exact rational arithmetic stands in for the
floating-point percentage. -/
def coveragePercent (automated total : Nat) : ℚ :=
  if total = 0 then 0 else 100 * (automated : ℚ) / (total : ℚ)

/-- Modelled from the spec: the recognized domain-pair heuristics table
(spec §4.6 and §9: trigger domain, target domain, pattern title). -/
def PATTERN_RULES : List (String × String × String) :=
  [("binary_sensor", "light", "Turn lights on/off with motion"),
   ("sensor", "climate", "Keep temperature comfortable automatically")]

/-- The identifiers of an area's active entities that belong to one
domain (the prefix before the dot). -/
def domainEnts (areaEnts : List String) (d : String) : List String :=
  areaEnts.filter (fun e => serviceDomain e == d)

/-- Modelled from the spec: the per-area pattern match (spec §4.6): for
each recognized domain pair, emit a `Pattern` only when both domains are
present among the area's active entities and each side has at least one
entity not already in the automated set. -/
def areaPatterns (automated : List String) (areaEnts : List String) (a : AreaEntry) :
    List Pattern :=
  PATTERN_RULES.filterMap fun rule =>
    if !(domainEnts areaEnts rule.1).isEmpty && !(domainEnts areaEnts rule.2.1).isEmpty &&
        (domainEnts areaEnts rule.1).any (fun e => !(automated.contains e)) &&
        (domainEnts areaEnts rule.2.1).any (fun e => !(automated.contains e)) then
      some { title := rule.2.2, area_id := a.area_id, area_name := a.name,
             trigger_entities := domainEnts areaEnts rule.1,
             target_entities := domainEnts areaEnts rule.2.1 }
    else none

/-- Stable insertion for the descending ranking of area profiles. -/
def insertProfile (p : AreaProfile) : List AreaProfile → List AreaProfile
  | [] => [p]
  | q :: qs =>
      if q.pattern_count ≤ p.pattern_count then p :: q :: qs else q :: insertProfile p qs

/-- Ranking of area profiles by descending pattern opportunities, ties
keeping input order (spec §4.6). -/
def sortProfiles (l : List AreaProfile) : List AreaProfile :=
  l.foldr insertProfile []

/-- Modelled from the spec: the Inventory Analyzer entry point (spec
§4.6), missing from the source tree. -/
def analyze_inventory (entities : List EntityEntry) (areas : List AreaEntry)
    (automations : List Yaml) : InventoryAnalysis :=
  let active := entities.filter isActive
  let activeIds := active.map (·.entity_id)
  let automatedAll := extract_automated_entities automations
  let automatedIds := activeIds.filter (fun e => automatedAll.contains e)
  let unautomatedIds := activeIds.filter (fun e => !(automatedAll.contains e))
  let patterns := areas.flatMap fun a =>
    areaPatterns automatedAll
      ((active.filter (fun e => e.area_id == some a.area_id)).map (·.entity_id)) a
  let profiles := areas.filterMap fun a =>
    if ((active.filter (fun e => e.area_id == some a.area_id)).map (·.entity_id)).isEmpty then
      none
    else
      some { area_id := a.area_id, area_name := a.name,
             entity_ids := (active.filter (fun e => e.area_id == some a.area_id)).map
               (·.entity_id),
             pattern_count := (patterns.filter (fun p => p.area_id == a.area_id)).length }
  { total_entities := active.length
    total_areas := areas.length
    total_automations := automations.length
    automated_entity_ids := automatedIds
    unautomated_entity_ids := unautomatedIds
    area_profiles := sortProfiles profiles
    matched_patterns := patterns
    coverage_percent := coveragePercent automatedIds.length activeIds.length }

theorem filter_partition_length {α : Type} (l : List α) (p : α → Bool) :
    (l.filter p).length + (l.filter (fun a => !(p a))).length = l.length := by
  induction l with
  | nil => rfl
  | cons a as ih =>
      by_cases h : p a = true <;> simp [List.filter_cons, h, ih] <;> omega

/-- C6: For every entity, area, and automation collection, the
InventoryAnalysis coverage percentage equals
100 * |automated active entities| / |active entities| (the active
entities split exactly into the automated and unautomated sets), equals
0 when there are zero active entities, and in particular 4 active
entities with 2 referenced by automations give coverage 50. -/
theorem coverage_formula (entities : List EntityEntry) (areas : List AreaEntry)
    (automations : List Yaml) :
    ((analyze_inventory entities areas automations).automated_entity_ids.length +
      (analyze_inventory entities areas automations).unautomated_entity_ids.length =
      (analyze_inventory entities areas automations).total_entities) ∧
    ((analyze_inventory entities areas automations).coverage_percent =
      coveragePercent
        (analyze_inventory entities areas automations).automated_entity_ids.length
        (analyze_inventory entities areas automations).total_entities) ∧
    ((analyze_inventory entities areas automations).total_entities = 0 →
      (analyze_inventory entities areas automations).coverage_percent = 0) ∧
    (analyze_inventory
        [⟨"light.living_room", some "Living Room Light", "test", none, some "living_room",
            none, none, []⟩,
         ⟨"light.bedroom", some "Bedroom Light", "test", none, some "bedroom",
            none, none, []⟩,
         ⟨"sensor.temperature_living", some "Living Temp", "test", none, some "living_room",
            none, none, []⟩,
         ⟨"binary_sensor.motion_living", some "Living Motion", "test", none, some "living_room",
            none, none, []⟩]
        [⟨"living_room", "Living Room", [], none, none, [], none⟩,
         ⟨"bedroom", "Bedroom", [], none, none, [], none⟩]
        [Yaml.map [("trigger", Yaml.seq [Yaml.map [("platform", Yaml.str "state"),
            ("entity_id", Yaml.str "binary_sensor.motion_living")]]),
          ("action", Yaml.seq [Yaml.map [("service", Yaml.str "light.turn_on"),
            ("target", Yaml.map [("entity_id", Yaml.str "light.living_room")])]])]]
      ).coverage_percent = 50 := by
  refine ⟨?_, ?_, ?_, ?_⟩
  · exact (filter_partition_length ((entities.filter isActive).map (·.entity_id))
      (fun e => (extract_automated_entities automations).contains e)).trans
      (List.length_map _ _)
  · exact congrArg (coveragePercent _) (List.length_map _ _)
  · intro h
    have hlen : ((entities.filter isActive).map (·.entity_id)).length = 0 :=
      (List.length_map _ _).trans h
    show coveragePercent _ ((entities.filter isActive).map (·.entity_id)).length = 0
    rw [hlen]
    rfl
  · show coveragePercent 2 4 = 50
    norm_num [coveragePercent]

/-- Closed instance of `coverage_formula`: the empty inventory has zero
active entities and coverage 0. -/
theorem coverage_formula_witness :
    (analyze_inventory [] [] []).total_entities = 0 ∧
    (analyze_inventory [] [] []).coverage_percent = 0 :=
  ⟨rfl, (coverage_formula [] [] []).2.2.1 rfl⟩

theorem isActive_eq_false_of_marked {e : EntityEntry}
    (h : e.disabled_by ≠ none ∨ e.hidden_by ≠ none) : isActive e = false := by
  rcases h with h | h
  · cases hd : e.disabled_by with
    | none => exact absurd hd h
    | some v => simp [isActive, hd]
  · cases hh : e.hidden_by with
    | none => exact absurd hh h
    | some v => simp [isActive, hh]

theorem mem_active_map {entities : List EntityEntry} {x : String}
    (hx : x ∈ (entities.filter isActive).map (·.entity_id)) :
    ∃ e2, e2 ∈ entities ∧ isActive e2 = true ∧ e2.entity_id = x := by
  obtain ⟨e2, he2, hid⟩ := List.mem_map.mp hx
  obtain ⟨hmem, hact⟩ := List.mem_filter.mp he2
  exact ⟨e2, hmem, hact, hid⟩

theorem marked_id_not_active {entities : List EntityEntry} {e : EntityEntry}
    (he : e ∈ entities) (hmark : e.disabled_by ≠ none ∨ e.hidden_by ≠ none)
    (hnd : (entities.map (·.entity_id)).Nodup) :
    e.entity_id ∉ (entities.filter isActive).map (·.entity_id) := by
  intro hx
  obtain ⟨e2, hmem, hact, hid⟩ := mem_active_map hx
  have he2e : e2 = e := List.inj_on_of_nodup_map hnd hmem he hid
  rw [he2e, isActive_eq_false_of_marked hmark] at hact
  cases hact

theorem area_map_subset_active {entities : List EntityEntry} {pred : EntityEntry → Bool}
    {x : String}
    (hx : x ∈ ((entities.filter isActive).filter pred).map (·.entity_id)) :
    x ∈ (entities.filter isActive).map (·.entity_id) := by
  obtain ⟨e2, he2, hid⟩ := List.mem_map.mp hx
  exact List.mem_map.mpr ⟨e2, List.mem_of_mem_filter he2, hid⟩

theorem mem_insertProfile {p q : AreaProfile} :
    ∀ {l : List AreaProfile}, q ∈ insertProfile p l ↔ q = p ∨ q ∈ l
  | [] => by simp [insertProfile]
  | r :: rs => by
    by_cases h : r.pattern_count ≤ p.pattern_count
    · simp [insertProfile, h, List.mem_cons]
    · simp only [insertProfile, if_neg h, List.mem_cons, mem_insertProfile (l := rs)]
      tauto

theorem mem_sortProfiles {q : AreaProfile} :
    ∀ {l : List AreaProfile}, q ∈ sortProfiles l → q ∈ l
  | [] => by simp [sortProfiles]
  | r :: rs => by
    intro h
    have hs : sortProfiles (r :: rs) = insertProfile r (sortProfiles rs) := rfl
    rw [hs, mem_insertProfile] at h
    rcases h with h | h
    · exact h ▸ List.mem_cons_self _ _
    · exact List.mem_cons_of_mem _ (mem_sortProfiles h)

/-- C7: For every input collection, any entity carrying a disabled or
hidden marker is excluded from every count, every entity-identifier set
(automated and unautomated), every area profile, and every pattern
computed by analyze_inventory.  (Entity identifiers are assumed globally
unique, as spec §3 requires of the registry snapshot.) -/
theorem marked_entities_excluded (entities : List EntityEntry) (areas : List AreaEntry)
    (automations : List Yaml) (e : EntityEntry) (he : e ∈ entities)
    (hmark : e.disabled_by ≠ none ∨ e.hidden_by ≠ none)
    (hnd : (entities.map (·.entity_id)).Nodup) :
    e.entity_id ∉ (analyze_inventory entities areas automations).automated_entity_ids ∧
    e.entity_id ∉ (analyze_inventory entities areas automations).unautomated_entity_ids ∧
    ((analyze_inventory entities areas automations).total_entities +
      (entities.filter (fun x => !(isActive x))).length = entities.length) ∧
    (∀ p ∈ (analyze_inventory entities areas automations).matched_patterns,
      e.entity_id ∉ p.trigger_entities ∧ e.entity_id ∉ p.target_entities) ∧
    (∀ prof ∈ (analyze_inventory entities areas automations).area_profiles,
      e.entity_id ∉ prof.entity_ids) := by
  have hna := marked_id_not_active he hmark hnd
  refine ⟨?_, ?_, filter_partition_length entities isActive, ?_, ?_⟩
  · intro hx
    exact hna (List.mem_of_mem_filter hx)
  · intro hx
    exact hna (List.mem_of_mem_filter hx)
  · intro p hp
    obtain ⟨a, ha, hpa⟩ := List.mem_flatMap.mp hp
    obtain ⟨rule, hrule, hif⟩ := List.mem_filterMap.mp hpa
    split at hif
    · obtain rfl := Option.some.inj hif
      constructor
      · intro hx
        exact hna (area_map_subset_active (List.mem_of_mem_filter hx))
      · intro hx
        exact hna (area_map_subset_active (List.mem_of_mem_filter hx))
    · cases hif
  · intro prof hprof
    have hmem := mem_sortProfiles hprof
    obtain ⟨a, ha, hif⟩ := List.mem_filterMap.mp hmem
    split at hif
    · cases hif
    · obtain rfl := Option.some.inj hif
      intro hx
      exact hna (area_map_subset_active hx)

/-- Closed instance of `marked_entities_excluded` at the disabled-entity
scenario of the repository's inventory tests. -/
theorem marked_entities_excluded_witness :
    ("light.disabled_light" ∉ (analyze_inventory
        [⟨"light.living_room", some "Living Room Light", "test", none, some "living_room",
            none, none, []⟩,
         ⟨"light.disabled_light", some "Disabled Light", "test", none, some "living_room",
            some "user", none, []⟩,
         ⟨"binary_sensor.motion_living", some "Motion Living", "test", none, some "living_room",
            none, none, []⟩,
         ⟨"sensor.hidden_sensor", some "Hidden Sensor", "test", none, some "living_room",
            none, some "integration", []⟩]
        [⟨"living_room", "Living Room", [], none, none, [], none⟩] []).automated_entity_ids) ∧
    ("light.disabled_light" ∉ (analyze_inventory
        [⟨"light.living_room", some "Living Room Light", "test", none, some "living_room",
            none, none, []⟩,
         ⟨"light.disabled_light", some "Disabled Light", "test", none, some "living_room",
            some "user", none, []⟩,
         ⟨"binary_sensor.motion_living", some "Motion Living", "test", none, some "living_room",
            none, none, []⟩,
         ⟨"sensor.hidden_sensor", some "Hidden Sensor", "test", none, some "living_room",
            none, some "integration", []⟩]
        [⟨"living_room", "Living Room", [], none, none, [], none⟩] []).unautomated_entity_ids) := by
  have h := marked_entities_excluded
    [⟨"light.living_room", some "Living Room Light", "test", none, some "living_room",
        none, none, []⟩,
     ⟨"light.disabled_light", some "Disabled Light", "test", none, some "living_room",
        some "user", none, []⟩,
     ⟨"binary_sensor.motion_living", some "Motion Living", "test", none, some "living_room",
        none, none, []⟩,
     ⟨"sensor.hidden_sensor", some "Hidden Sensor", "test", none, some "living_room",
        none, some "integration", []⟩]
    [⟨"living_room", "Living Room", [], none, none, [], none⟩] []
    ⟨"light.disabled_light", some "Disabled Light", "test", none, some "living_room",
        some "user", none, []⟩
    (by decide) (Or.inl (by decide)) (by decide)
  exact ⟨h.1, h.2.1⟩

theorem pattern_rules_title_inj {r1 r2 : String × String × String}
    (h1 : r1 ∈ PATTERN_RULES) (h2 : r2 ∈ PATTERN_RULES) (ht : r1.2.2 = r2.2.2) :
    r1 = r2 := by
  simp only [PATTERN_RULES, List.mem_cons, List.not_mem_nil, or_false] at h1 h2
  rcases h1 with rfl | rfl <;> rcases h2 with rfl | rfl
  · rfl
  · exact absurd ht (by decide)
  · exact absurd ht (by decide)
  · rfl

/-- C8: For every area whose active entities contain a recognized domain
pair, analyze_inventory emits the corresponding Pattern only if at least
one entity on each side of the pair is not already in the automated set;
when every entity of the pair's domains in the area is already
automated, the pattern is suppressed (so re-running the analysis after
automating all entities of a previously matched pair removes it). -/
theorem pattern_requires_unautomated (entities : List EntityEntry) (areas : List AreaEntry)
    (automations : List Yaml) :
    (∀ p ∈ (analyze_inventory entities areas automations).matched_patterns,
      (∃ t ∈ p.trigger_entities, t ∉ extract_automated_entities automations) ∧
      (∃ g ∈ p.target_entities, g ∉ extract_automated_entities automations)) ∧
    (∀ rule ∈ PATTERN_RULES, ∀ a ∈ areas,
      (∀ eid ∈ ((entities.filter isActive).filter
          (fun e2 => e2.area_id == some a.area_id)).map (·.entity_id),
        (serviceDomain eid = rule.1 ∨ serviceDomain eid = rule.2.1) →
        eid ∈ extract_automated_entities automations) →
      ∀ p ∈ (analyze_inventory entities areas automations).matched_patterns,
        ¬(p.area_id = a.area_id ∧ p.title = rule.2.2)) := by
  constructor
  · intro p hp
    obtain ⟨a, ha, hpa⟩ := List.mem_flatMap.mp hp
    obtain ⟨rule, hrule, hif⟩ := List.mem_filterMap.mp hpa
    split at hif
    next hcond =>
      obtain rfl := Option.some.inj hif
      simp only [Bool.and_eq_true, List.any_eq_true, Bool.not_eq_true'] at hcond
      obtain ⟨⟨⟨hne1, hne2⟩, t, ht, htc⟩, g, hg, hgc⟩ := hcond
      exact ⟨⟨t, ht, (contains_false_iff _ _).mp htc⟩,
             ⟨g, hg, (contains_false_iff _ _).mp hgc⟩⟩
    next => cases hif
  · intro rule hrule a ha hall p hp hcontra
    obtain ⟨a2, ha2, hpa2⟩ := List.mem_flatMap.mp hp
    obtain ⟨rule2, hrule2, hif⟩ := List.mem_filterMap.mp hpa2
    split at hif
    next hcond =>
      obtain rfl := Option.some.inj hif
      have hr : rule2 = rule := pattern_rules_title_inj hrule2 hrule hcontra.2
      subst hr
      have harea : a2.area_id = a.area_id := hcontra.1
      simp only [Bool.and_eq_true, List.any_eq_true, Bool.not_eq_true'] at hcond
      obtain ⟨⟨⟨hne1, hne2⟩, t, ht, htc⟩, g, hg, hgc⟩ := hcond
      have ht2 : t ∈ ((entities.filter isActive).filter
          (fun e2 => e2.area_id == some a.area_id)).map (·.entity_id) := by
        rw [← harea]
        exact List.mem_of_mem_filter ht
      have hdom : serviceDomain t = rule2.1 := by
        have hmf := List.mem_filter.mp ht
        simpa using hmf.2
      exact (contains_false_iff _ _).mp htc (hall t ht2 (Or.inl hdom))
    next => cases hif

/-- Closed instance of `pattern_requires_unautomated`: the kitchen
motion+light pair whose entities are all referenced by an automation
yields no motion-light pattern, while the hallway pair with no
automations yields one whose sides are unautomated. -/
theorem pattern_requires_unautomated_witness :
    (∀ p ∈ (analyze_inventory
        [⟨"binary_sensor.motion_kitchen", some "Kitchen Motion", "test", none, some "kitchen",
            none, none, []⟩,
         ⟨"light.kitchen_ceiling", some "Kitchen Light", "test", none, some "kitchen",
            none, none, []⟩]
        [⟨"kitchen", "Kitchen", [], none, none, [], none⟩]
        [Yaml.map [("trigger", Yaml.seq [Yaml.map [("platform", Yaml.str "state"),
            ("entity_id", Yaml.str "binary_sensor.motion_kitchen")]]),
          ("action", Yaml.seq [Yaml.map [("service", Yaml.str "light.turn_on"),
            ("target", Yaml.map [("entity_id", Yaml.str "light.kitchen_ceiling")])]])]]
      ).matched_patterns,
      ¬(p.area_id = "kitchen" ∧ p.title = "Turn lights on/off with motion")) ∧
    ((∃ t ∈ (Pattern.mk "Turn lights on/off with motion" "hallway" "Hallway"
        ["binary_sensor.motion_hallway"] ["light.hallway_ceiling"]).trigger_entities,
        t ∉ extract_automated_entities []) ∧
     (∃ g ∈ (Pattern.mk "Turn lights on/off with motion" "hallway" "Hallway"
        ["binary_sensor.motion_hallway"] ["light.hallway_ceiling"]).target_entities,
        g ∉ extract_automated_entities [])) := by
  constructor
  · exact (pattern_requires_unautomated
      [⟨"binary_sensor.motion_kitchen", some "Kitchen Motion", "test", none, some "kitchen",
          none, none, []⟩,
       ⟨"light.kitchen_ceiling", some "Kitchen Light", "test", none, some "kitchen",
          none, none, []⟩]
      [⟨"kitchen", "Kitchen", [], none, none, [], none⟩]
      [Yaml.map [("trigger", Yaml.seq [Yaml.map [("platform", Yaml.str "state"),
          ("entity_id", Yaml.str "binary_sensor.motion_kitchen")]]),
        ("action", Yaml.seq [Yaml.map [("service", Yaml.str "light.turn_on"),
          ("target", Yaml.map [("entity_id", Yaml.str "light.kitchen_ceiling")])]])]]).2
      ("binary_sensor", "light", "Turn lights on/off with motion") (by decide)
      ⟨"kitchen", "Kitchen", [], none, none, [], none⟩ (by decide) (by decide)
  · exact (pattern_requires_unautomated
      [⟨"binary_sensor.motion_hallway", some "Hallway Motion", "test", none, some "hallway",
          none, none, []⟩,
       ⟨"light.hallway_ceiling", some "Hallway Light", "test", none, some "hallway",
          none, none, []⟩]
      [⟨"hallway", "Hallway", [], none, none, [], none⟩] []).1
      (Pattern.mk "Turn lights on/off with motion" "hallway" "Hallway"
        ["binary_sensor.motion_hallway"] ["light.hallway_ceiling"]) (by decide)

/-! ## Totality of the extractor and rule functions over malformed trees -/

mutual

/-- Whether any mapping anywhere in a tree binds one of the given keys. -/
def hasKeyIn (keys : List String) : Yaml → Bool
  | .str _ => false
  | .seq xs => hasKeyInList keys xs
  | .map kvs => hasKeyInKVs keys kvs

/-- Key search over the elements of a sequence node. -/
def hasKeyInList (keys : List String) : List Yaml → Bool
  | [] => false
  | x :: xs => hasKeyIn keys x || hasKeyInList keys xs

/-- Key search over the bindings of a mapping node. -/
def hasKeyInKVs (keys : List String) : List (String × Yaml) → Bool
  | [] => false
  | (k, v) :: kvs => keys.contains k || hasKeyIn keys v || hasKeyInKVs keys kvs

end

mutual

theorem collectEntityIds_eq_nil (t : Yaml)
    (h : hasKeyIn ["entity_id", "entity", "entities"] t = false) :
    collectEntityIds t = [] := by
  cases t with
  | str s => rfl
  | seq xs => exact collectEntityIdsList_eq_nil xs (by simpa [hasKeyIn] using h)
  | map kvs => exact collectEntityIdsKVs_eq_nil kvs (by simpa [hasKeyIn] using h)

theorem collectEntityIdsList_eq_nil (xs : List Yaml)
    (h : hasKeyInList ["entity_id", "entity", "entities"] xs = false) :
    collectEntityIdsList xs = [] := by
  cases xs with
  | nil => rfl
  | cons x xs =>
    simp only [hasKeyInList, Bool.or_eq_false_iff] at h
    simp [collectEntityIdsList, collectEntityIds_eq_nil x h.1,
      collectEntityIdsList_eq_nil xs h.2]

theorem collectEntityIdsKVs_eq_nil (kvs : List (String × Yaml))
    (h : hasKeyInKVs ["entity_id", "entity", "entities"] kvs = false) :
    collectEntityIdsKVs kvs = [] := by
  cases kvs with
  | nil => rfl
  | cons kv kvs =>
    obtain ⟨k, v⟩ := kv
    simp only [hasKeyInKVs, Bool.or_eq_false_iff] at h
    have hk : k ∉ ["entity_id", "entity", "entities"] := by
      simpa [List.contains] using h.1.1
    simp only [List.mem_cons, List.not_mem_nil, or_false, not_or] at hk
    simp [collectEntityIdsKVs, entityKeyStrings, hk.1, hk.2.1, hk.2.2,
      collectEntityIds_eq_nil v h.1.2, collectEntityIdsKVs_eq_nil kvs h.2]

end

mutual

theorem collectServices_eq_nil (t : Yaml)
    (h : hasKeyIn ["service"] t = false) : collectServices t = [] := by
  cases t with
  | str s => rfl
  | seq xs => exact collectServicesList_eq_nil xs (by simpa [hasKeyIn] using h)
  | map kvs => exact collectServicesKVs_eq_nil kvs (by simpa [hasKeyIn] using h)

theorem collectServicesList_eq_nil (xs : List Yaml)
    (h : hasKeyInList ["service"] xs = false) : collectServicesList xs = [] := by
  cases xs with
  | nil => rfl
  | cons x xs =>
    simp only [hasKeyInList, Bool.or_eq_false_iff] at h
    simp [collectServicesList, collectServices_eq_nil x h.1,
      collectServicesList_eq_nil xs h.2]

theorem collectServicesKVs_eq_nil (kvs : List (String × Yaml))
    (h : hasKeyInKVs ["service"] kvs = false) : collectServicesKVs kvs = [] := by
  cases kvs with
  | nil => rfl
  | cons kv kvs =>
    obtain ⟨k, v⟩ := kv
    simp only [hasKeyInKVs, Bool.or_eq_false_iff] at h
    have hk : k ∉ ["service"] := by
      simpa [List.contains] using h.1.1
    simp only [List.mem_cons, List.not_mem_nil, or_false] at hk
    simp [collectServicesKVs, hk, collectServices_eq_nil v h.1.2,
      collectServicesKVs_eq_nil kvs h.2]

end

/-! ### Dashboard rule set -/

/-- The `cards` sequence of a view node ([] when absent or not a
sequence). -/
def viewCards (v : Yaml) : List Yaml :=
  match getKey "cards" v with
  | some (.seq cs) => cs
  | _ => []

/-- The `views` sequence of a dashboard tree ([] when absent or not a
sequence). -/
def dashViews (d : Yaml) : List Yaml :=
  match getKey "views" d with
  | some (.seq vs) => vs
  | _ => []

/-- Every card of every view of a dashboard. -/
def allCards (dashboard : Yaml) : List Yaml :=
  (dashViews dashboard).flatMap viewCards

/-- A card's `type` value, when present. -/
def cardType (c : Yaml) : Option String :=
  getStr "type" c

/-- A view's `title` value, when present. -/
def viewTitle (v : Yaml) : Option String :=
  getStr "title" v

/-- The entity domains referenced by one card. -/
def cardEntityDomains (c : Yaml) : List String :=
  ((extract_entity_ids c).map serviceDomain).dedup

/-- Modelled from the spec: the non-displayable domains excluded by the
unused-entities rule (spec §4.4: "excluding non-displayable domains such
as automation/script/scene"). -/
def NON_DISPLAYABLE : List String :=
  ["automation", "script", "scene"]

/-- Modelled from the spec: the unused-entities dashboard rule (spec
§4.4), missing from the source tree.  Known entities never referenced by
any card are flagged, excluding non-displayable domains. -/
def check_unused_entities (dashboard : Yaml) (known : List String) : List Finding :=
  (known.filter (fun e => !((extract_entity_ids dashboard).contains e) &&
      !(NON_DISPLAYABLE.contains (serviceDomain e)))).map fun e =>
    { severity := .suggestion, category := .unused_entities,
      automation_id := none, automation_alias := none,
      title := "Entity not shown on the dashboard: " ++ e,
      description := "The known entity " ++ e ++ " is not referenced by any card",
      suggestion := some ("Add a card showing " ++ e) }

/-- The deduplicated card types that render entities of one domain. -/
def domainCardTypes (dashboard : Yaml) (d : String) : List String :=
  ((allCards dashboard).filterMap fun c =>
    match cardType c with
    | some ty => if (cardEntityDomains c).contains d then some ty else none
    | none => none).dedup

/-- Modelled from the spec: the inconsistent-cards dashboard rule (spec
§4.4), missing from the source tree.  A domain rendered by more than one
card type across the dashboard is flagged. -/
def check_inconsistent_cards (dashboard : Yaml) : List Finding :=
  ((((allCards dashboard).flatMap cardEntityDomains).dedup).filter
      (fun d => 1 < (domainCardTypes dashboard d).length)).map fun d =>
    { severity := .info, category := .inconsistent_cards,
      automation_id := none, automation_alias := none,
      title := "Domain rendered by different card types: " ++ d,
      description := "Entities of domain " ++ d ++ " appear under more than one card type",
      suggestion := some "Consider one consistent card type per domain" }

/-- Whether the second character list is a leading segment of the first. -/
def leadsWith : List Char → List Char → Bool
  | _, [] => true
  | [], _ :: _ => false
  | a :: as, b :: bs => a == b && leadsWith as bs

/-- Whether `needle` occurs as a contiguous segment of `hay`. -/
def hasSegment (needle : List Char) : List Char → Bool
  | [] => needle.isEmpty
  | c :: cs => leadsWith (c :: cs) needle || hasSegment needle cs

/-- Substring test on strings (the `in` test of the source language). -/
def strContains (hay needle : String) : Bool :=
  hasSegment needle.data hay.data

/-- Modelled from the spec: the missing-area-coverage dashboard rule
(spec §4.4), missing from the source tree.  A known area with no view
whose title mentions its name (substring match) is flagged. -/
def check_missing_area_coverage (dashboard : Yaml) (areas : List AreaEntry) :
    List Finding :=
  (areas.filter (fun a => !((dashViews dashboard).any fun v =>
      match viewTitle v with
      | some t => strContains t a.name
      | none => false))).map fun a =>
    { severity := .suggestion, category := .missing_area_coverage,
      automation_id := none, automation_alias := none,
      title := "No dashboard view covers area: " ++ a.name,
      description := "The area " ++ a.name ++ " has no view whose title mentions it",
      suggestion := some ("Add a view for " ++ a.name) }

/-- Modelled from the spec: the card-type recommendation table (spec
§4.4: a sensor on a generic entities list is recommended for a gauge, a
climate entity for a thermostat card). -/
def CARD_RECOMMENDATIONS : List (String × String) :=
  [("sensor", "gauge"), ("climate", "thermostat")]

/-- Modelled from the spec: the card-type recommendation dashboard rule
(spec §4.4), missing from the source tree. -/
def check_card_type_recommendations (dashboard : Yaml) : List Finding :=
  (allCards dashboard).flatMap fun c =>
    match cardType c with
    | some ty =>
        if ty = "entities" then
          CARD_RECOMMENDATIONS.filterMap fun rec2 =>
            if (cardEntityDomains c).contains rec2.1 then
              some { severity := .info, category := .card_type_recommendation,
                     automation_id := none, automation_alias := none,
                     title := "Consider a " ++ rec2.2 ++ " card for " ++ rec2.1 ++ " entities",
                     description := "Entities of domain " ++ rec2.1 ++
                       " are rendered in a generic entities list",
                     suggestion := some ("Use a " ++ rec2.2 ++ " card") }
            else none
        else []
    | none => []

/-- Modelled from the spec: the stack-type card list (spec §4.4). -/
def STACK_TYPES : List String :=
  ["vertical-stack", "horizontal-stack", "grid"]

/-- Modelled from the spec: the card-count threshold of the layout rule
(spec §4.4 and §8: a view with 9 ungrouped cards is flagged). -/
def CARD_COUNT_THRESHOLD : Nat := 8

/-- Modelled from the spec: the layout-optimization dashboard rule (spec
§4.4), missing from the source tree.  A view with more cards than the
threshold and no stack-type grouping is flagged as too long. -/
def check_layout_optimization (dashboard : Yaml) : List Finding :=
  (dashViews dashboard).filterMap fun v =>
    if CARD_COUNT_THRESHOLD < (viewCards v).length &&
        !((viewCards v).any fun c =>
          match cardType c with
          | some ty => STACK_TYPES.contains ty
          | none => false) then
      some { severity := .suggestion, category := .layout_optimization,
             automation_id := none, automation_alias := none,
             title := "View is too long: " ++
               (match viewTitle v with
                | some t => t
                | none => "untitled"),
             description := "The view holds more cards than the threshold with no stack grouping",
             suggestion := some "Group related cards under stack cards" }
    else none

/-- Modelled from the spec: the ordered dashboard rule registry (spec
§4.4, §9), missing from the source tree. -/
def run_all_dashboard_rules (dashboard : Yaml) (known : List String)
    (areas : List AreaEntry) : List Finding :=
  check_unused_entities dashboard known ++ check_inconsistent_cards dashboard ++
  check_missing_area_coverage dashboard areas ++
  check_card_type_recommendations dashboard ++ check_layout_optimization dashboard

/-- C9: Every rule function — the four automation rules and the five
dashboard rules — and the tree reference extractor is total over
arbitrary input trees: each is a Lean function, so it returns normally
on every tree, and absent data contributes no references and no
findings.  A tree without reference-bearing keys extracts nothing; an
automation without `trigger`/`action` keys produces no findings from any
automation rule; a dashboard whose views carry no cards (in particular
one with a missing or malformed `views` key) produces no findings from
any card-based dashboard rule; and the unused-entities and
area-coverage rules produce nothing from an empty known-entity or area
collection. -/
theorem rules_and_extractor_total (t auto dash : Yaml)
    (hrefs : hasKeyIn ["entity_id", "entity", "entities"] t = false)
    (hsvc : hasKeyIn ["service"] t = false)
    (htr : getKey "trigger" auto = none) (hact : getKey "action" auto = none)
    (hcards : ∀ v ∈ dashViews dash, viewCards v = []) :
    extract_entity_ids t = [] ∧ extract_services t = [] ∧
    check_trigger_efficiency auto = [] ∧ check_missing_guards auto = [] ∧
    check_security_concerns auto = [] ∧ check_deprecated_patterns auto = [] ∧
    run_all_rules auto = [] ∧
    check_unused_entities dash [] = [] ∧ check_inconsistent_cards dash = [] ∧
    check_missing_area_coverage dash [] = [] ∧
    check_card_type_recommendations dash = [] ∧ check_layout_optimization dash = [] ∧
    run_all_dashboard_rules dash [] [] = [] := by
  have he : extract_entity_ids t = [] := by
    simp [extract_entity_ids, collectEntityIds_eq_nil t hrefs]
  have hs : extract_services t = [] := by
    simp [extract_services, collectServices_eq_nil t hsvc]
  have h1 : check_trigger_efficiency auto = [] := by
    simp [check_trigger_efficiency, getSeq, htr]
  have h2 : check_missing_guards auto = [] := by
    simp [check_missing_guards, getSeq, htr]
  have h3 : check_security_concerns auto = [] := by
    simp [check_security_concerns, getSeq, hact]
  have h4 : check_deprecated_patterns auto = [] := by
    simp [check_deprecated_patterns, getSeq, hact]
  have hall : allCards dash = [] := by
    rw [allCards, List.flatMap_eq_nil_iff]
    exact hcards
  have hd1 : check_unused_entities dash [] = [] := rfl
  have hd2 : check_inconsistent_cards dash = [] := by
    simp [check_inconsistent_cards, hall]
  have hd3 : check_missing_area_coverage dash [] = [] := rfl
  have hd4 : check_card_type_recommendations dash = [] := by
    simp [check_card_type_recommendations, hall]
  have hd5 : check_layout_optimization dash = [] := by
    rw [check_layout_optimization, List.filterMap_eq_nil_iff]
    intro v hv
    simp [hcards v hv, CARD_COUNT_THRESHOLD]
  refine ⟨he, hs, h1, h2, h3, h4, by simp [run_all_rules, h1, h2, h3, h4],
    hd1, hd2, hd3, hd4, hd5, ?_⟩
  simp [run_all_dashboard_rules, hd1, hd2, hd3, hd4, hd5]

/-- Closed instance of `rules_and_extractor_total` at an automation tree
holding only an `alias` binding and a dashboard tree with no `views`
key. -/
theorem rules_and_extractor_total_witness :
    extract_entity_ids (Yaml.map [("alias", Yaml.str "Test")]) = [] ∧
    extract_services (Yaml.map [("alias", Yaml.str "Test")]) = [] ∧
    run_all_rules (Yaml.map [("alias", Yaml.str "Test")]) = [] ∧
    run_all_dashboard_rules (Yaml.map [("title", Yaml.str "Empty")]) [] [] = [] := by
  have h := rules_and_extractor_total (Yaml.map [("alias", Yaml.str "Test")])
    (Yaml.map [("alias", Yaml.str "Test")]) (Yaml.map [("title", Yaml.str "Empty")])
    (by decide) (by decide) rfl rfl
    (fun v hv => absurd hv (List.not_mem_nil v))
  exact ⟨h.1, h.2.1, h.2.2.2.2.2.2.1, h.2.2.2.2.2.2.2.2.2.2.2.2⟩

/-! ## Dashboard view scoping -/

/-- The `views` sequence of a dashboard tree ([] when absent or not a
sequence). -/
def getViews (d : Yaml) : List Yaml :=
  match getKey "views" d with
  | some (.seq vs) => vs
  | _ => []

/-- The dashboard with its `views` sequence replaced. -/
def setViews (d : Yaml) (vs : List Yaml) : Yaml :=
  match d with
  | .map kvs => .map (("views", Yaml.seq vs) :: kvs.filter (fun kv => kv.1 != "views"))
  | _ => .map [("views", Yaml.seq vs)]

/-- Whether a view's `path` value equals the requested path. -/
def pathMatches (path : String) (v : Yaml) : Bool :=
  match getKey "path" v with
  | some (.str p) => p == path
  | _ => false

/-- The index encoded by a `view-N` fallback path, when `N` is a decimal
numeral. -/
def viewIndex (path : String) : Option Nat :=
  match path.data with
  | 'v' :: 'i' :: 'e' :: 'w' :: '-' :: rest => digitsToNat rest
  | _ => none

/-- Modelled from the spec: `filter_dashboard_view_by_path` of the absent
`reviewer` scoping module (behavior fixed by its test suite).  Exact
path match first; failing that, a `view-N` path selects the view at
zero-based index N when in range; otherwise the result carries an empty
views list. -/
def filter_dashboard_view_by_path (dashboard : Yaml) (path : String) : Yaml :=
  match (getViews dashboard).find? (pathMatches path) with
  | some v => setViews dashboard [v]
  | none =>
      match viewIndex path with
      | some n =>
          match (getViews dashboard)[n]? with
          | some v => setViews dashboard [v]
          | none => setViews dashboard []
      | none => setViews dashboard []

theorem getViews_setViews (d : Yaml) (vs : List Yaml) :
    getViews (setViews d vs) = vs := by
  cases d <;> rfl

/-- C10: filter_dashboard_view_by_path first looks for a view whose path
equals the requested path exactly; if none matches and the requested
path has the form view-N with N a valid zero-based index into the views
sequence, it returns exactly the view at index N; otherwise (no path
match and no valid index, including N out of range) it returns a
dashboard with an empty views list — and, being a total function, it
never raises. -/
theorem filter_view_by_path_spec (dashboard : Yaml) (path : String) :
    (∀ v, (getViews dashboard).find? (pathMatches path) = some v →
      getViews (filter_dashboard_view_by_path dashboard path) = [v]) ∧
    ((getViews dashboard).find? (pathMatches path) = none →
      ∀ n, viewIndex path = some n →
      ∀ v, (getViews dashboard)[n]? = some v →
      getViews (filter_dashboard_view_by_path dashboard path) = [v]) ∧
    ((getViews dashboard).find? (pathMatches path) = none →
      (viewIndex path = none ∨
        ∃ n, viewIndex path = some n ∧ (getViews dashboard).length ≤ n) →
      getViews (filter_dashboard_view_by_path dashboard path) = []) := by
  refine ⟨?_, ?_, ?_⟩
  · intro v hfind
    simp [filter_dashboard_view_by_path, hfind, getViews_setViews]
  · intro hfind n hidx v hget
    simp [filter_dashboard_view_by_path, hfind, hidx, hget, getViews_setViews]
  · intro hfind hbad
    rcases hbad with hidx | ⟨n, hidx, hlen⟩
    · simp [filter_dashboard_view_by_path, hfind, hidx, getViews_setViews]
    · have hget : (getViews dashboard)[n]? = none := by
        simpa using hlen
      simp [filter_dashboard_view_by_path, hfind, hidx, hget, getViews_setViews]

/-- Closed instance of `filter_view_by_path_spec`: on a one-view
dashboard, the out-of-range fallback path view-5 yields an empty views
list, and on a three-view dashboard the fallback path view-1 yields
exactly the second view. -/
theorem filter_view_by_path_spec_witness :
    getViews (filter_dashboard_view_by_path
      (Yaml.map [("views", Yaml.seq [Yaml.map [("title", Yaml.str "Only View")]])])
      "view-5") = [] ∧
    getViews (filter_dashboard_view_by_path
      (Yaml.map [("views", Yaml.seq
        [Yaml.map [("title", Yaml.str "First View")],
         Yaml.map [("title", Yaml.str "Second View")],
         Yaml.map [("title", Yaml.str "Third View")]])])
      "view-1") = [Yaml.map [("title", Yaml.str "Second View")]] := by
  constructor
  · exact (filter_view_by_path_spec
      (Yaml.map [("views", Yaml.seq [Yaml.map [("title", Yaml.str "Only View")]])])
      "view-5").2.2 rfl (Or.inr ⟨5, rfl, by decide⟩)
  · exact (filter_view_by_path_spec
      (Yaml.map [("views", Yaml.seq
        [Yaml.map [("title", Yaml.str "First View")],
         Yaml.map [("title", Yaml.str "Second View")],
         Yaml.map [("title", Yaml.str "Third View")]])])
      "view-1").2.1 rfl 1 rfl (Yaml.map [("title", Yaml.str "Second View")]) rfl

end HaAutogen
